import Mathlib

/-!
Verification of the HOLE Legal Document Toolkit PDF converter
(`pdf_converter.py`) against its natural-language specification.

The program is a thin command dispatcher over three library operations
(merge, image-to-PDF, optimize) plus a composite batch pipeline.  We give a
shallow embedding: paths are component lists, the filesystem is an
association list of path/file/size entries plus a list of directories,
library behaviour that the glue observes (decodability of a stream, the
size of a JPEG encoding, the size of a serialized PDF) is carried either as
data on the embedded objects or as an explicit environment of encoder size
functions, and the click echo calls become structured message values.
Every definition follows the corresponding lines of `pdf_converter.py`.
-/

namespace PdfConv

/-- Color mode of a decoded PIL image, as tested at lines 101 and 171 of
the source (the img.mode membership test for RGBA, LA and P). -/
inductive ImgMode where
  | RGB
  | RGBA
  | LA
  | P
  | L
  | CMYK
deriving DecidableEq

/-- Abstract pixel content of a decoded image.  Pasting onto a white RGB
background (lines 102-107 and 172-177) is recorded structurally. -/
inductive PixData where
  | src (id : Nat)
  | compositedOnWhite (p : PixData)
deriving DecidableEq

/-- A decoded (PIL) image: its mode, abstract pixel content, and whether
the JPEG encoder succeeds on it (ability of the external library call
the img.save JPEG encoding call). -/
structure ImageData where
  mode : ImgMode
  pixels : PixData
  canEncode : Bool
deriving DecidableEq

/-- Raw content of an embedded stream.  An `enc` stream is pre-existing
encoded data with its byte length and what `Image.open` yields on it
(`none` models a decode failure); a `jpegOf` stream is data produced by the
glue itself via the PIL JPEG encoder, recording the encoded image, the
quality, the optimize flag, the DPI metadata tag if any, and the length
the encoder produced. -/
inductive StreamData where
  | enc (len : Nat) (decoded : Option ImageData)
  | jpegOf (img : ImageData) (q : Nat) (opt : Bool) (dpi : Option (Nat × Nat)) (len : Nat)
deriving DecidableEq

/-- Byte length of a stream, as observed by `len(raw_image)` at line 167. -/
def StreamData.len : StreamData → Nat
  | .enc n _ => n
  | .jpegOf _ _ _ _ n => n

/-- Result of `Image.open(BytesIO(raw_image))` (line 168) on a stream. -/
def StreamData.decodeImg : StreamData → Option ImageData
  | .enc _ d => d
  | .jpegOf img _ _ _ _ => some img

/-- PDF stream filter name, as in the replacement
`obj.write(..., filter=pikepdf.Name.DCTDecode)` at line 185. -/
inductive PdfFilter where
  | DCTDecode
  | FlateDecode
  | JPXDecode
  | rawData
deriving DecidableEq

/-- An embedded image XObject stream: content plus current filter tag. -/
structure ImageStream where
  data : StreamData
  filt : PdfFilter
deriving DecidableEq

/-- An entry of a page XObject resource table; the source distinguishes
entries with `/Subtype == /Image` (line 161) from everything else. -/
inductive XObj where
  | image (st : ImageStream)
  | nonImage (d : Nat)
deriving DecidableEq

/-- A PDF page: its (optional) XObject table, keyed by name in iteration
order, and an identifier for its non-image content.  A page whose
xobjects field is none models a page without `/Resources` or without
`/XObject` in its resources (line 154). -/
structure Page where
  xobjects : Option (List (String × XObj))
  content : Nat
deriving DecidableEq

/-- A PDF document is its page list. -/
abbrev PDF := List Page

/-- A path is a list of components; `os.path.join(d, n)` is `d ++ [n]`. -/
abbrev Path := List String

/-- Content of a file on disk as the program can observe it: a PDF
document, an image that PIL can decode, or anything else. -/
inductive File where
  | pdfDoc (d : PDF)
  | imageFile (img : ImageData)
  | other (id : Nat)
deriving DecidableEq

/-- The filesystem: file entries (path, content, byte size) and the set of
directories. -/
structure FS where
  files : List (Path × File × Nat)
  dirs : List Path
deriving DecidableEq

/-- Look a path up in the filesystem, returning content and size. -/
def FS.lookup (fs : FS) (p : Path) : Option (File × Nat) :=
  (fs.files.find? (fun e => e.1 == p)).map (fun e => e.2)

/-- The check `os.path.exists(p)` for a file path. -/
def FS.existsF (fs : FS) (p : Path) : Bool :=
  (fs.lookup p).isSome

/-- The call `os.path.getsize(p)`. -/
def FS.getsize (fs : FS) (p : Path) : Option Nat :=
  (fs.lookup p).map (fun e => e.2)

/-- Writing a file (creates or overwrites the entry at that path). -/
def FS.write (fs : FS) (p : Path) (f : File) (n : Nat) : FS :=
  { fs with files := (p, f, n) :: fs.files.filter (fun e => e.1 != p) }

/-- The call `os.remove(p)`. -/
def FS.remove (fs : FS) (p : Path) : FS :=
  { fs with files := fs.files.filter (fun e => e.1 != p) }

/-- Directory creation, as in `tempfile.mkdtemp()`. -/
def FS.mkdir (fs : FS) (d : Path) : FS :=
  { fs with dirs := d :: fs.dirs }

/-- Whether path p lies strictly inside directory d. -/
def Path.inDir (p d : Path) : Bool :=
  d.isPrefixOf p && decide (d.length < p.length)

/-- The call `os.rmdir(d)`: succeeds only on an existing empty directory,
otherwise raises OSError, which the caller at lines 336-339 swallows, so
the state is simply unchanged. -/
def FS.rmdir (fs : FS) (d : Path) : FS :=
  if fs.dirs.contains d && fs.files.all (fun e => !(Path.inDir e.1 d)) then
    { fs with dirs := fs.dirs.filter (fun x => x != d) }
  else fs

/-- Sizes chosen by the external encoder libraries: the byte length PIL
produces for a JPEG encoding of an image at a quality/optimize setting,
and the byte length of a serialized PDF document. -/
structure Env where
  jpegLen : ImageData → Nat → Bool → Nat
  pdfBytes : PDF → Nat

/-- Exceptions the glue can observe from the libraries and from Python. -/
inductive PyErr where
  | keyError (k : String)
  | notAPdf (p : Path)
  | cannotIdentifyImage
  | encoderError
  | emptyImageList
  | divisionByZero
deriving DecidableEq

/-- Structured form of every click.echo call in the source. -/
inductive Msg where
  | fileNotFound (p : Path)
  | adding (p : Path)
  | mergedOk (n : Nat) (outp : Path)
  | mergeError (e : PyErr)
  | processing (p : Path)
  | convertedOk (n : Nat) (outp : Path)
  | convertError (e : PyErr)
  | optimizing (p : Path)
  | optimizeWarn (name : String) (e : PyErr)
  | optimizedOk (origSize outSize : Nat) (reduction : ℚ)
  | optimizeError (e : PyErr)
  | batchNeedInput
  | batchComplete (outp : Path)
deriving DecidableEq

/-- Paths mentioned by an exception string. -/
def PyErr.paths : PyErr → List Path
  | .notAPdf p => [p]
  | _ => []

/-- Paths mentioned by a message. -/
def Msg.paths : Msg → List Path
  | .fileNotFound p => [p]
  | .adding p => [p]
  | .mergedOk _ p => [p]
  | .mergeError e => e.paths
  | .processing p => [p]
  | .convertedOk _ p => [p]
  | .convertError e => e.paths
  | .optimizing p => [p]
  | .optimizeWarn _ e => e.paths
  | .optimizedOk _ _ _ => []
  | .optimizeError e => e.paths
  | .batchNeedInput => []
  | .batchComplete p => [p]

/-- A quality preset: the value triple of the `quality_settings`
dictionary built in `PDFConverter.__init__` (lines 32-36). -/
structure Preset where
  dpi : Nat
  quality : Nat
  optimize : Bool
deriving DecidableEq

/-- The `quality_settings` dictionary lookup `self.quality_settings[q]`:
the three fixed presets, and a KeyError (modelled as none) otherwise. -/
def quality_settings (q : String) : Option Preset :=
  if q = "high" then some ⟨300, 95, true⟩
  else if q = "medium" then some ⟨200, 85, true⟩
  else if q = "low" then some ⟨150, 75, true⟩
  else none

/-- The converter object: `PDFConverter.__init__` stores the label. -/
structure PDFConverter where
  quality : String
deriving DecidableEq

/-- Constructing a converter, `PDFConverter(quality)`; the Python default
argument is the label high (line 24).  Construction never validates the
label. -/
def mkPDFConverter (quality : String := "high") : PDFConverter :=
  { quality := quality }

/-- The active settings `self.quality_settings[self.quality]` used at
lines 89 and 148. -/
def PDFConverter.settings (c : PDFConverter) : Option Preset :=
  quality_settings c.quality

/-- The CLI argument parsing boundary for the quality option,
the click.Choice enum over high, medium and low (lines 242, 261, 282): any other
label is rejected before a converter is constructed. -/
def clickChoiceQuality (s : String) : Option String :=
  if s = "high" ∨ s = "medium" ∨ s = "low" then some s else none

/-- Result of one converter operation: the boolean the method returns, the
filesystem afterwards, and the stdout/stderr echo streams. -/
structure OpResult where
  ok : Bool
  fs : FS
  stdout : List Msg
  stderr : List Msg
deriving DecidableEq

/-- Outcome of the per-file loop of merge_pdfs (lines 52-58): pages
collected so far, or the first missing file, or a library exception from
appending an unreadable input. -/
inductive MergeStep where
  | ok (pages : List Page) (msgs : List Msg)
  | fileMissing (msgs : List Msg) (p : Path)
  | libError (msgs : List Msg) (e : PyErr)
deriving DecidableEq

/-- The loop of merge_pdfs: for each input, check existence (line 53),
echo Adding (line 57), then merger.append (line 58), which raises on a
file that is not a readable PDF. -/
def mergeLoop (fs : FS) : List Path → List Page → List Msg → MergeStep
  | [], pages, msgs => .ok pages msgs
  | p :: rest, pages, msgs =>
    match fs.lookup p with
    | none => .fileMissing msgs p
    | some (File.pdfDoc d, _) => mergeLoop fs rest (pages ++ d) (msgs ++ [.adding p])
    | some _ => .libError (msgs ++ [.adding p]) (.notAPdf p)

/-- PDFConverter.merge_pdfs (lines 38-68).  On success the merger writes
the concatenated document to the output path; a missing input aborts with
a message naming it; any library exception is caught by the catch-all
handler at line 66. -/
def merge_pdfs (conv : PDFConverter) (env : Env) (fs : FS)
    (input_files : List Path) (output_file : Path) : OpResult :=
  match mergeLoop fs input_files [] [] with
  | .ok pages msgs =>
    { ok := true
      fs := fs.write output_file (File.pdfDoc pages) (env.pdfBytes pages)
      stdout := msgs ++ [.mergedOk input_files.length output_file]
      stderr := [] }
  | .fileMissing msgs p =>
    { ok := false, fs := fs, stdout := msgs, stderr := [.fileNotFound p] }
  | .libError msgs e =>
    { ok := false, fs := fs, stdout := msgs, stderr := [.mergeError e] }

/-- The RGB normalization of lines 101-107 and 171-177: an image whose
mode carries alpha or a palette is pasted onto a fresh white RGB
background; other modes are left as they are. -/
def flattenIfNeeded (img : ImageData) : ImageData :=
  if img.mode = .RGBA ∨ img.mode = .LA ∨ img.mode = .P then
    { mode := .RGB, pixels := .compositedOnWhite img.pixels, canEncode := img.canEncode }
  else img

/-- Outcome of the per-image loop of image_to_pdf (lines 93-113). -/
inductive ConvStep where
  | ok (imgs : List StreamData) (msgs : List Msg)
  | err (msgs : List Msg) (e : PyErr)
deriving DecidableEq

/-- The per-image loop of image_to_pdf: echo Processing, Image.open (a
non-image file raises), flatten, save as JPEG with the preset quality,
optimize flag and DPI tag.  There is no per-image recovery here: a failure
aborts the whole operation through the catch-all handler. -/
def convertLoop (env : Env) (s : Preset) (fs : FS) :
    List Path → List StreamData → List Msg → ConvStep
  | [], acc, msgs => .ok acc msgs
  | p :: rest, acc, msgs =>
    match fs.lookup p with
    | some (File.imageFile img, _) =>
      let img2 := flattenIfNeeded img
      if img2.canEncode then
        convertLoop env s fs rest
          (acc ++ [StreamData.jpegOf img2 s.quality s.optimize (some (s.dpi, s.dpi))
            (env.jpegLen img2 s.quality s.optimize)])
          (msgs ++ [.processing p])
      else .err (msgs ++ [.processing p]) .encoderError
    | _ => .err (msgs ++ [.processing p]) .cannotIdentifyImage

/-- The img2pdf.convert call (lines 116-119): one page per processed
image, in order, each page showing its image as a DCTDecode stream; an
empty input list raises. -/
def img2pdfPages (imgs : List StreamData) : PDF :=
  imgs.map (fun b =>
    { xobjects := some [("Im0", XObj.image { data := b, filt := .DCTDecode })], content := 0 })

/-- PDFConverter.image_to_pdf (lines 70-126): verify every input exists up
front (lines 83-86), look up the preset (line 89, a KeyError on an unknown
label reaches the catch-all handler at line 124), process the images, and
write the img2pdf output. -/
def image_to_pdf (conv : PDFConverter) (env : Env) (fs : FS)
    (image_files : List Path) (output_file : Path) : OpResult :=
  match image_files.find? (fun p => !(fs.existsF p)) with
  | some p => { ok := false, fs := fs, stdout := [], stderr := [.fileNotFound p] }
  | none =>
    match quality_settings conv.quality with
    | none =>
      { ok := false, fs := fs, stdout := []
        stderr := [.convertError (.keyError conv.quality)] }
    | some s =>
      match convertLoop env s fs image_files [] [] with
      | .err msgs e =>
        { ok := false, fs := fs, stdout := msgs, stderr := [.convertError e] }
      | .ok imgs msgs =>
        if imgs.isEmpty then
          { ok := false, fs := fs, stdout := msgs
            stderr := [.convertError .emptyImageList] }
        else
          let doc := img2pdfPages imgs
          { ok := true
            fs := fs.write output_file (File.pdfDoc doc) (env.pdfBytes doc)
            stdout := msgs ++ [.convertedOk image_files.length output_file]
            stderr := [] }

/-- The per-image block of optimize_pdf (lines 163-190): skip streams of
at most 1024 bytes; otherwise decode, flatten, re-encode as JPEG at the
preset quality (no DPI tag here, line 181) and replace content and filter
in place; any failure inside the block is caught at line 187, reported as
a warning naming the image, and the stream is left untouched. -/
def optimizeImage (env : Env) (s : Preset) (name : String) (st : ImageStream) :
    ImageStream × List Msg :=
  if 1024 < st.data.len then
    match st.data.decodeImg with
    | none => (st, [.optimizeWarn name .cannotIdentifyImage])
    | some img =>
      let img2 := flattenIfNeeded img
      if img2.canEncode then
        ({ data := .jpegOf img2 s.quality s.optimize none
             (env.jpegLen img2 s.quality s.optimize)
           filt := .DCTDecode }, [])
      else (st, [.optimizeWarn name .encoderError])
  else (st, [])

/-- One XObject entry of the optimize loop: only entries whose subtype is
Image are touched (line 161). -/
def optimizeXObj (env : Env) (s : Preset) : String × XObj → (String × XObj) × List Msg
  | (name, .image st) =>
    let r := optimizeImage env s name st
    ((name, .image r.1), r.2)
  | (name, o) => ((name, o), [])

/-- Map a warning-producing transformation over a list, collecting the
warnings in order. -/
def mapWarn {α β : Type} (f : α → β × List Msg) : List α → List β × List Msg
  | [] => ([], [])
  | a :: as =>
    let r := f a
    let rs := mapWarn f as
    (r.1 :: rs.1, r.2 ++ rs.2)

/-- One page of the optimize loop: pages without an XObject table are
skipped (line 154), otherwise every entry is visited in order. -/
def optimizePage (env : Env) (s : Preset) (p : Page) : Page × List Msg :=
  match p.xobjects with
  | none => (p, [])
  | some xs =>
    let r := mapWarn (optimizeXObj env s) xs
    ({ p with xobjects := some r.1 }, r.2)

/-- The whole-document image pass of optimize_pdf (lines 153-190). -/
def optimizeDoc (env : Env) (s : Preset) (d : PDF) : PDF × List Msg :=
  mapWarn (optimizePage env s) d

/-- Result of optimize_pdf: the returned boolean, the filesystem, the echo
streams, and the reported size reduction on success. -/
structure OptResult where
  ok : Bool
  fs : FS
  stdout : List Msg
  stderr : List Msg
  reduction : Option ℚ
deriving DecidableEq

/-- PDFConverter.optimize_pdf (lines 128-209): existence check, echo
Optimizing, preset lookup (KeyError on an unknown label reaches the
catch-all at line 207), pikepdf.open (raises on a non-PDF), the per-image
pass, save, and the size-reduction report of lines 196-203 computed as
((original - optimized) / original) * 100; a zero-size original makes that
division raise inside the same try block, after the output was already
saved. -/
def optimize_pdf (conv : PDFConverter) (env : Env) (fs : FS)
    (input_file : Path) (output_file : Path) : OptResult :=
  match fs.lookup input_file with
  | none =>
    { ok := false, fs := fs, stdout := [], stderr := [.fileNotFound input_file]
      reduction := none }
  | some (f, origSize) =>
    let msgs : List Msg := [.optimizing input_file]
    match quality_settings conv.quality with
    | none =>
      { ok := false, fs := fs, stdout := msgs
        stderr := [.optimizeError (.keyError conv.quality)], reduction := none }
    | some s =>
      match f with
      | File.pdfDoc d =>
        let r := optimizeDoc env s d
        let outSize := env.pdfBytes r.1
        let fs' := fs.write output_file (File.pdfDoc r.1) outSize
        if origSize = 0 then
          { ok := false, fs := fs', stdout := msgs
            stderr := r.2 ++ [.optimizeError .divisionByZero], reduction := none }
        else
          let reduction : ℚ := ((origSize : ℚ) - (outSize : ℚ)) / (origSize : ℚ) * 100
          { ok := true, fs := fs'
            stdout := msgs ++ [.optimizedOk origSize outSize reduction]
            stderr := r.2, reduction := some reduction }
      | _ =>
        { ok := false, fs := fs, stdout := msgs
          stderr := [.optimizeError (.notAPdf input_file)], reduction := none }

/-- Result of the batch subcommand: process exit code, filesystem, echo
streams. -/
structure BatchResult where
  exitCode : Nat
  fs : FS
  stdout : List Msg
  stderr : List Msg
deriving DecidableEq

/-- The finally block of batch (lines 326-339): remove each recorded
temporary file if it still exists (a deletion error is swallowed; in this
model deletion of an existing file succeeds), then try to remove the
temporary directory, swallowing the OSError when it is not empty. -/
def cleanupTemps (fs : FS) (temps : List Path) (tmpdir : Path) : FS :=
  (temps.foldl (fun a p => if a.existsF p then a.remove p else a) fs).rmdir tmpdir

/-- Intermediate outcome of the try block of batch: exit code, filesystem,
the temp_files list accumulated so far, and the echo streams. -/
structure BodyOut where
  exitCode : Nat
  fs : FS
  temps : List Path
  stdout : List Msg
  stderr : List Msg
deriving DecidableEq

/-- The try block of batch (lines 302-324): convert the images (if any)
into temp_images.pdf, merge the temporary PDF and the given PDFs into
temp_merged.pdf, optimize that into the requested output; each step exits
with code 1 on failure. -/
def batchBody (conv : PDFConverter) (env : Env) (fs : FS)
    (image_files pdf_files : List Path) (output tmpdir : Path) : BodyOut :=
  let tip := tmpdir ++ ["temp_images.pdf"]
  let tm := tmpdir ++ ["temp_merged.pdf"]
  if image_files.isEmpty then
    let r2 := merge_pdfs conv env fs pdf_files tm
    if r2.ok then
      let r3 := optimize_pdf conv env r2.fs tm output
      if r3.ok then
        { exitCode := 0, fs := r3.fs, temps := [tm]
          stdout := r2.stdout ++ r3.stdout ++ [.batchComplete output]
          stderr := r2.stderr ++ r3.stderr }
      else
        { exitCode := 1, fs := r3.fs, temps := [tm]
          stdout := r2.stdout ++ r3.stdout, stderr := r2.stderr ++ r3.stderr }
    else
      { exitCode := 1, fs := r2.fs, temps := []
        stdout := r2.stdout, stderr := r2.stderr }
  else
    let r1 := image_to_pdf conv env fs image_files tip
    if r1.ok then
      let r2 := merge_pdfs conv env r1.fs (tip :: pdf_files) tm
      if r2.ok then
        let r3 := optimize_pdf conv env r2.fs tm output
        if r3.ok then
          { exitCode := 0, fs := r3.fs, temps := [tip, tm]
            stdout := r1.stdout ++ r2.stdout ++ r3.stdout ++ [.batchComplete output]
            stderr := r1.stderr ++ r2.stderr ++ r3.stderr }
        else
          { exitCode := 1, fs := r3.fs, temps := [tip, tm]
            stdout := r1.stdout ++ r2.stdout ++ r3.stdout
            stderr := r1.stderr ++ r2.stderr ++ r3.stderr }
      else
        { exitCode := 1, fs := r2.fs, temps := [tip]
          stdout := r1.stdout ++ r2.stdout, stderr := r1.stderr ++ r2.stderr }
    else
      { exitCode := 1, fs := r1.fs, temps := []
        stdout := r1.stdout, stderr := r1.stderr }

/-- The batch subcommand (lines 284-339).  Note the order of the source:
the converter is constructed, the temporary directory is created by
tempfile.mkdtemp() at line 295, and only then is the at-least-one-input
validation performed at line 298; its sys.exit(1) at line 300 happens
before the try/finally, so that path never reaches the cleanup code.  All
paths through the try block run the finally cleanup. -/
def batch (env : Env) (fs : FS) (image_files pdf_files : List Path)
    (output : Path) (quality : String) (tmpdir : Path) : BatchResult :=
  let conv := mkPDFConverter quality
  let fs0 := fs.mkdir tmpdir
  if image_files.isEmpty && pdf_files.isEmpty then
    { exitCode := 1, fs := fs0, stdout := [], stderr := [.batchNeedInput] }
  else
    let b := batchBody conv env fs0 image_files pdf_files output tmpdir
    { exitCode := b.exitCode, fs := cleanupTemps b.fs b.temps tmpdir
      stdout := b.stdout, stderr := b.stderr }

instance : Inhabited File := ⟨File.other 0⟩

/-! Fixtures used by the concrete witnesses and counterexamples. -/

/-- An encoder environment for concrete runs: every JPEG encoding is 2000
bytes and every serialized PDF is 500 bytes. -/
def envA : Env := { jpegLen := fun _ _ _ => 2000, pdfBytes := fun _ => 500 }

/-- A decodable, encodable RGBA image. -/
def imgA : ImageData := { mode := .RGBA, pixels := .src 7, canEncode := true }

/-- A one-page PDF document with no XObject table. -/
def docA : PDF := [{ xobjects := none, content := 5 }]

/-- A small filesystem: one image file and one 100-byte PDF. -/
def fsA : FS :=
  { files := [(["a.jpg"], File.imageFile imgA, 3000), (["b.pdf"], File.pdfDoc docA, 100)]
    dirs := [] }

/-! Basic filesystem lemmas. -/

@[simp] theorem FS.write_dirs (fs : FS) (p : Path) (f : File) (n : Nat) :
    (fs.write p f n).dirs = fs.dirs := rfl

@[simp] theorem FS.remove_dirs (fs : FS) (p : Path) :
    (fs.remove p).dirs = fs.dirs := rfl

@[simp] theorem FS.mkdir_files (fs : FS) (d : Path) :
    (fs.mkdir d).files = fs.files := rfl

@[simp] theorem FS.mkdir_dirs (fs : FS) (d : Path) :
    (fs.mkdir d).dirs = d :: fs.dirs := rfl

@[simp] theorem FS.mkdir_existsF (fs : FS) (d : Path) (q : Path) :
    (fs.mkdir d).existsF q = fs.existsF q := rfl

@[simp] theorem FS.rmdir_files (fs : FS) (d : Path) :
    (fs.rmdir d).files = fs.files := by
  unfold FS.rmdir; split <;> rfl

@[simp] theorem FS.rmdir_existsF (fs : FS) (d : Path) (q : Path) :
    (fs.rmdir d).existsF q = fs.existsF q := by
  unfold FS.existsF FS.lookup FS.rmdir; split <;> rfl

theorem find?_filter_keyNe (l : List (Path × File × Nat)) (p q : Path) (h : q ≠ p) :
    (l.filter (fun e => e.1 != p)).find? (fun e => e.1 == q) =
      l.find? (fun e => e.1 == q) := by
  induction l with
  | nil => rfl
  | cons a l ih =>
    by_cases hap : a.1 = p
    · have h1 : (a.1 != p) = false := by simp [hap]
      have h2 : (a.1 == q) = false := by simp [hap]; exact fun hq => h hq.symm
      simp [List.filter_cons, h1, List.find?_cons, h2, ih]
    · have h1 : (a.1 != p) = true := by simp [hap]
      by_cases haq : a.1 = q
      · have h2 : (a.1 == q) = true := by simp [haq]
        simp [List.filter_cons, h1, List.find?_cons, h2]
      · have h2 : (a.1 == q) = false := by simp [haq]
        simp [List.filter_cons, h1, List.find?_cons, h2, ih]

theorem find?_filter_keySelf (l : List (Path × File × Nat)) (p : Path) :
    (l.filter (fun e => e.1 != p)).find? (fun e => e.1 == p) = none := by
  rw [List.find?_eq_none]
  intro x hx
  have := List.of_mem_filter hx
  simpa using this

theorem FS.existsF_write (fs : FS) (p : Path) (f : File) (n : Nat) (q : Path) :
    (fs.write p f n).existsF q = ((q == p) || fs.existsF q) := by
  by_cases hq : q = p
  · subst hq
    simp [FS.existsF, FS.lookup, FS.write, List.find?_cons]
  · have h2 : (p == q) = false := by simp; exact fun hc => hq hc.symm
    simp [FS.existsF, FS.lookup, FS.write, List.find?_cons, h2,
      find?_filter_keyNe fs.files p q hq, hq]

theorem FS.existsF_remove (fs : FS) (p : Path) (q : Path) :
    (fs.remove p).existsF q = (!(q == p) && fs.existsF q) := by
  by_cases hq : q = p
  · subst hq
    simp [FS.existsF, FS.lookup, FS.remove, find?_filter_keySelf]
  · simp [FS.existsF, FS.lookup, FS.remove, find?_filter_keyNe fs.files p q hq, hq]

theorem FS.lookup_write_self (fs : FS) (p : Path) (f : File) (n : Nat) :
    (fs.write p f n).lookup p = some (f, n) := by
  simp [FS.lookup, FS.write, List.find?_cons]

theorem FS.existsF_of_mem (fs : FS) (e : Path × File × Nat) (h : e ∈ fs.files) :
    fs.existsF e.1 = true := by
  have : (fs.files.find? (fun x => x.1 == e.1)).isSome := by
    rw [List.find?_isSome]
    exact ⟨e, h, by simp⟩
  simpa [FS.existsF, FS.lookup] using this

theorem FS.exists_entry_of_existsF (fs : FS) (p : Path) (h : fs.existsF p = true) :
    ∃ e ∈ fs.files, e.1 = p := by
  unfold FS.existsF FS.lookup at h
  rw [Option.isSome_map'] at h
  rw [List.find?_isSome] at h
  obtain ⟨e, he, hp⟩ := h
  exact ⟨e, he, by simpa using hp⟩

/-! Frame lemmas: each operation either leaves the filesystem unchanged or
writes exactly its output path, and none of them touches directories. -/

theorem merge_fs_cases (c : PDFConverter) (env : Env) (fs : FS)
    (ins : List Path) (o : Path) :
    (merge_pdfs c env fs ins o).fs = fs ∨
      ∃ f n, (merge_pdfs c env fs ins o).fs = fs.write o f n := by
  unfold merge_pdfs
  split
  · exact Or.inr ⟨_, _, rfl⟩
  · exact Or.inl rfl
  · exact Or.inl rfl

theorem merge_fail_fs (c : PDFConverter) (env : Env) (fs : FS)
    (ins : List Path) (o : Path) (h : (merge_pdfs c env fs ins o).ok = false) :
    (merge_pdfs c env fs ins o).fs = fs := by
  unfold merge_pdfs at h ⊢
  split at h
  · simp at h
  · rfl
  · rfl

theorem image_fs_cases (c : PDFConverter) (env : Env) (fs : FS)
    (ins : List Path) (o : Path) :
    (image_to_pdf c env fs ins o).fs = fs ∨
      ∃ f n, (image_to_pdf c env fs ins o).fs = fs.write o f n := by
  unfold image_to_pdf
  split
  · exact Or.inl rfl
  · split
    · exact Or.inl rfl
    · split
      · exact Or.inl rfl
      · split
        · exact Or.inl rfl
        · exact Or.inr ⟨_, _, rfl⟩

theorem image_fail_fs (c : PDFConverter) (env : Env) (fs : FS)
    (ins : List Path) (o : Path) (h : (image_to_pdf c env fs ins o).ok = false) :
    (image_to_pdf c env fs ins o).fs = fs := by
  unfold image_to_pdf at h ⊢
  split at h
  · rfl
  · split at h
    · rfl
    · split at h
      · rfl
      · split at h
        · rename_i hcond
          rw [if_pos hcond]
        · simp at h

theorem optimize_fs_cases (c : PDFConverter) (env : Env) (fs : FS)
    (i : Path) (o : Path) :
    (optimize_pdf c env fs i o).fs = fs ∨
      ∃ f n, (optimize_pdf c env fs i o).fs = fs.write o f n := by
  unfold optimize_pdf
  split
  · exact Or.inl rfl
  · split
    · exact Or.inl rfl
    · split
      · split
        · exact Or.inr ⟨_, _, rfl⟩
        · exact Or.inr ⟨_, _, rfl⟩
      · exact Or.inl rfl

theorem merge_frame (c : PDFConverter) (env : Env) (fs : FS)
    (ins : List Path) (o : Path) (q : Path)
    (h : (merge_pdfs c env fs ins o).fs.existsF q = true) :
    fs.existsF q = true ∨ q = o := by
  rcases merge_fs_cases c env fs ins o with hc | ⟨f, n, hc⟩
  · rw [hc] at h; exact Or.inl h
  · rw [hc, FS.existsF_write] at h
    rcases Bool.or_eq_true_iff.mp h with h1 | h1
    · exact Or.inr (by simpa using h1)
    · exact Or.inl h1

theorem image_frame (c : PDFConverter) (env : Env) (fs : FS)
    (ins : List Path) (o : Path) (q : Path)
    (h : (image_to_pdf c env fs ins o).fs.existsF q = true) :
    fs.existsF q = true ∨ q = o := by
  rcases image_fs_cases c env fs ins o with hc | ⟨f, n, hc⟩
  · rw [hc] at h; exact Or.inl h
  · rw [hc, FS.existsF_write] at h
    rcases Bool.or_eq_true_iff.mp h with h1 | h1
    · exact Or.inr (by simpa using h1)
    · exact Or.inl h1

theorem optimize_frame (c : PDFConverter) (env : Env) (fs : FS)
    (i : Path) (o : Path) (q : Path)
    (h : (optimize_pdf c env fs i o).fs.existsF q = true) :
    fs.existsF q = true ∨ q = o := by
  rcases optimize_fs_cases c env fs i o with hc | ⟨f, n, hc⟩
  · rw [hc] at h; exact Or.inl h
  · rw [hc, FS.existsF_write] at h
    rcases Bool.or_eq_true_iff.mp h with h1 | h1
    · exact Or.inr (by simpa using h1)
    · exact Or.inl h1

theorem merge_dirs (c : PDFConverter) (env : Env) (fs : FS)
    (ins : List Path) (o : Path) :
    (merge_pdfs c env fs ins o).fs.dirs = fs.dirs := by
  rcases merge_fs_cases c env fs ins o with hc | ⟨f, n, hc⟩ <;> rw [hc] <;> simp

theorem image_dirs (c : PDFConverter) (env : Env) (fs : FS)
    (ins : List Path) (o : Path) :
    (image_to_pdf c env fs ins o).fs.dirs = fs.dirs := by
  rcases image_fs_cases c env fs ins o with hc | ⟨f, n, hc⟩ <;> rw [hc] <;> simp

theorem optimize_dirs (c : PDFConverter) (env : Env) (fs : FS)
    (i : Path) (o : Path) :
    (optimize_pdf c env fs i o).fs.dirs = fs.dirs := by
  rcases optimize_fs_cases c env fs i o with hc | ⟨f, n, hc⟩ <;> rw [hc] <;> simp

/-! Lemmas about the cleanup of the batch finally block. -/

theorem cleanupFold_existsF (temps : List Path) (fs : FS) (q : Path) :
    ((temps.foldl (fun a p => if a.existsF p then a.remove p else a) fs).existsF q) =
      (fs.existsF q && !(temps.contains q)) := by
  induction temps generalizing fs with
  | nil => simp
  | cons t ts ih =>
    rw [List.foldl_cons, ih]
    have hstep : ∀ r : FS, (if fs.existsF t then fs.remove t else fs).existsF q =
        (!(q == t) && fs.existsF q) := by
      intro r
      by_cases ht : fs.existsF t
      · simp [ht, FS.existsF_remove]
      · simp [ht]
        by_cases hq : q = t
        · subst hq; simp [Bool.eq_false_iff.mpr ht]
        · simp [hq]
    rw [hstep fs]
    by_cases hq : q = t
    · subst hq; simp
    · have hb : (q == t) = false := by simpa using hq
      simp [List.contains_cons, hb, hq]

theorem cleanupFold_dirs (temps : List Path) (fs : FS) :
    (temps.foldl (fun a p => if a.existsF p then a.remove p else a) fs).dirs = fs.dirs := by
  induction temps generalizing fs with
  | nil => rfl
  | cons t ts ih =>
    rw [List.foldl_cons, ih]
    by_cases ht : fs.existsF t <;> simp [ht]

/-- Main cleanup lemma: if everything the pipeline body may have written is
either a recorded temporary file or the requested output, and the original
filesystem keeps nothing inside the fresh temporary directory, then the
finally block removes all temporaries and the directory. -/
theorem cleanup_closes (fs fsb : FS) (td : Path) (temps : List Path) (outp : Path)
    (hframe : ∀ q, fsb.existsF q = true → fs.existsF q = true ∨ q ∈ temps ∨ q = outp)
    (hdirs : fsb.dirs = td :: fs.dirs)
    (hfs : ∀ e ∈ fs.files, Path.inDir e.1 td = false)
    (hout : Path.inDir outp td = false)
    (hd : td ∉ fs.dirs) :
    (∀ q, (cleanupTemps fsb temps td).existsF q = true → fs.existsF q = true ∨ q = outp)
    ∧ (cleanupTemps fsb temps td).dirs = fs.dirs := by
  unfold cleanupTemps
  set fold := temps.foldl (fun a p => if a.existsF p then a.remove p else a) fsb with hfold
  have hfoldE : ∀ q, fold.existsF q = (fsb.existsF q && !(temps.contains q)) := by
    intro q; rw [hfold]; exact cleanupFold_existsF temps fsb q
  have hfoldD : fold.dirs = td :: fs.dirs := by
    rw [hfold, cleanupFold_dirs]; exact hdirs
  have hpost : ∀ q, fold.existsF q = true → fs.existsF q = true ∨ q = outp := by
    intro q hq
    rw [hfoldE] at hq
    rcases Bool.and_eq_true_iff.mp hq with ⟨h1, h2⟩
    rcases hframe q h1 with h | h | h
    · exact Or.inl h
    · exfalso
      have : temps.contains q = true := List.elem_eq_true_of_mem h
      rw [this] at h2; simp at h2
    · exact Or.inr h
  have hcond : (fold.dirs.contains td && fold.files.all (fun e => !(Path.inDir e.1 td))) = true := by
    rw [Bool.and_eq_true_iff]
    constructor
    · rw [hfoldD]; simp
    · rw [List.all_eq_true]
      intro e he
      have h1 : fold.existsF e.1 = true := FS.existsF_of_mem fold e he
      rcases hpost e.1 h1 with h | h
      · rcases FS.exists_entry_of_existsF fs e.1 h with ⟨e', he', hpe⟩
        rw [← hpe]
        simp [hfs e' he']
      · rw [h]; simp [hout]
  constructor
  · intro q hq
    rw [FS.rmdir_existsF] at hq
    exact hpost q hq
  · unfold FS.rmdir
    rw [if_pos hcond]
    show fold.dirs.filter (fun x => x != td) = fs.dirs
    rw [hfoldD]
    rw [List.filter_cons]
    have : (td != td) = false := by simp
    rw [this]
    simp only [Bool.false_eq_true, if_false]
    rw [List.filter_eq_self]
    intro a ha
    have : a ≠ td := fun hc => hd (hc ▸ ha)
    simpa using this

/-- Frame property of the batch try block: everything it may leave on the
filesystem beyond the initial state is either a recorded temporary file or
the requested output, and it does not touch directories. -/
theorem batchBody_frame (conv : PDFConverter) (env : Env) (fs : FS)
    (imgs pdfs : List Path) (outp td : Path) :
    (∀ q, (batchBody conv env fs imgs pdfs outp td).fs.existsF q = true →
        fs.existsF q = true ∨ q ∈ (batchBody conv env fs imgs pdfs outp td).temps ∨ q = outp)
    ∧ (batchBody conv env fs imgs pdfs outp td).fs.dirs = fs.dirs := by
  simp only [batchBody]
  split
  · split
    · split
      · dsimp only
        constructor
        · intro q hq
          rcases optimize_frame _ _ _ _ _ _ hq with h | h
          · rcases merge_frame _ _ _ _ _ _ h with h' | h'
            · exact Or.inl h'
            · exact Or.inr (Or.inl (by simp [h']))
          · exact Or.inr (Or.inr h)
        · rw [optimize_dirs, merge_dirs]
      · dsimp only
        constructor
        · intro q hq
          rcases optimize_frame _ _ _ _ _ _ hq with h | h
          · rcases merge_frame _ _ _ _ _ _ h with h' | h'
            · exact Or.inl h'
            · exact Or.inr (Or.inl (by simp [h']))
          · exact Or.inr (Or.inr h)
        · rw [optimize_dirs, merge_dirs]
    · rename_i h2
      dsimp only
      rw [merge_fail_fs _ _ _ _ _ (by simpa using h2)]
      exact ⟨fun q hq => Or.inl hq, rfl⟩
  · split
    · split
      · split
        · dsimp only
          constructor
          · intro q hq
            rcases optimize_frame _ _ _ _ _ _ hq with h | h
            · rcases merge_frame _ _ _ _ _ _ h with h' | h'
              · rcases image_frame _ _ _ _ _ _ h' with h'' | h''
                · exact Or.inl h''
                · exact Or.inr (Or.inl (by simp [h'']))
              · exact Or.inr (Or.inl (by simp [h']))
            · exact Or.inr (Or.inr h)
          · rw [optimize_dirs, merge_dirs, image_dirs]
        · dsimp only
          constructor
          · intro q hq
            rcases optimize_frame _ _ _ _ _ _ hq with h | h
            · rcases merge_frame _ _ _ _ _ _ h with h' | h'
              · rcases image_frame _ _ _ _ _ _ h' with h'' | h''
                · exact Or.inl h''
                · exact Or.inr (Or.inl (by simp [h'']))
              · exact Or.inr (Or.inl (by simp [h']))
            · exact Or.inr (Or.inr h)
          · rw [optimize_dirs, merge_dirs, image_dirs]
      · rename_i h2
        dsimp only
        rw [merge_fail_fs _ _ _ _ _ (by simpa using h2)]
        constructor
        · intro q hq
          rcases image_frame _ _ _ _ _ _ hq with h | h
          · exact Or.inl h
          · exact Or.inr (Or.inl (by simp [h]))
        · rw [image_dirs]
    · rename_i h1
      dsimp only
      rw [image_fail_fs _ _ _ _ _ (by simpa using h1)]
      exact ⟨fun q hq => Or.inl hq, rfl⟩

/-- C1, counterexample.  The claim asserts that on EVERY batch invocation,
including an immediate failure before any processing, the temporary
directory is removed before the process exits.  On the zero-input
invocation the directory created by mkdtemp at line 295 is still present
at exit: the validation sys.exit(1) at line 300 precedes the try/finally. -/
theorem C1_zero_input_dir_leak_cex :
    (batch envA fsA [] [] [".out.pdf"] "high" ["tmp", "t"]).exitCode = 1
    ∧ (batch envA fsA [] [] [".out.pdf"] "high" ["tmp", "t"]).fs.dirs = [["tmp", "t"]]
    ∧ fsA.dirs = [] := by
  exact ⟨rfl, rfl, rfl⟩

/-- C1, amended: for every batch invocation that passes the at-least-one-
input validation (so the try/finally is reached), every temporary file
created so far and the temporary directory are removed before the process
exits, whatever the outcome of the pipeline steps; deletion failures are
swallowed.  The zero-input invocation, by contrast, exits before the
try/finally and leaves the freshly created temporary directory behind.
Formally: assuming the mkdtemp directory is fresh (nothing in the original
filesystem lies inside it, it is not an existing directory) and the
requested output path is not inside it, the final filesystem contains no
path beyond the original files and the requested output, and its directory
list is exactly the original one. -/
theorem C1_batch_cleanup (env : Env) (fs : FS) (imgs pdfs : List Path)
    (outp : Path) (q : String) (td : Path)
    (hne : imgs ≠ [] ∨ pdfs ≠ [])
    (hfs : ∀ e ∈ fs.files, Path.inDir e.1 td = false)
    (hout : Path.inDir outp td = false)
    (hd : td ∉ fs.dirs) :
    (∀ p, (batch env fs imgs pdfs outp q td).fs.existsF p = true →
        fs.existsF p = true ∨ p = outp)
    ∧ (batch env fs imgs pdfs outp q td).fs.dirs = fs.dirs := by
  have hcond : (imgs.isEmpty && pdfs.isEmpty) = false := by
    rcases hne with h | h
    · have : imgs.isEmpty = false := by simpa [List.isEmpty_iff] using h
      simp [this]
    · have : pdfs.isEmpty = false := by simpa [List.isEmpty_iff] using h
      simp [this]
  simp only [batch, hcond, Bool.false_eq_true, if_false]
  obtain ⟨hfr, hdr⟩ :=
    batchBody_frame (mkPDFConverter q) env (fs.mkdir td) imgs pdfs outp td
  exact cleanup_closes fs _ td _ outp
    (fun p hp => by simpa using hfr p hp)
    (by rw [hdr]; simp)
    hfs hout hd

/-- C1 witness: a concrete invocation with one image and one PDF. -/
theorem C1_batch_cleanup_witness :
    (∀ p, (batch envA fsA [["a.jpg"]] [["b.pdf"]] ["out.pdf"] "high" ["tmp", "t"]).fs.existsF p = true →
        fsA.existsF p = true ∨ p = ["out.pdf"])
    ∧ (batch envA fsA [["a.jpg"]] [["b.pdf"]] ["out.pdf"] "high" ["tmp", "t"]).fs.dirs = fsA.dirs :=
  C1_batch_cleanup envA fsA [["a.jpg"]] [["b.pdf"]] ["out.pdf"] "high" ["tmp", "t"]
    (Or.inl (by decide)) (by decide) (by decide) (by decide)

/-- C2, counterexample.  The claim asserts that batch with zero images and
zero PDFs performs no filesystem writes, creating no files or directories.
In fact mkdtemp at line 295 runs before the validation at line 298, so a
temporary directory is created (and, per C1, leaked). -/
theorem C2_zero_input_creates_dir_cex :
    (batch envA fsA [] [] ["out.pdf"] "high" ["tmp", "t"]).fs.dirs = [["tmp", "t"]]
    ∧ fsA.dirs = []
    ∧ (batch envA fsA [] [] ["out.pdf"] "high" ["tmp", "t"]).exitCode = 1
    ∧ (batch envA fsA [] [] ["out.pdf"] "high" ["tmp", "t"]).stderr = [Msg.batchNeedInput] := by
  exact ⟨rfl, rfl, rfl, rfl⟩

/-- C2, amended: batch with zero images and zero PDFs exits with code 1
and a diagnostic message, writes no files, and prints nothing else, but it
does first create a temporary directory, which that path also fails to
remove.  The final state is exactly the original filesystem plus the new
empty temporary directory. -/
theorem C2_zero_input_behavior (env : Env) (fs : FS) (outp : Path)
    (q : String) (td : Path) :
    batch env fs [] [] outp q td =
      { exitCode := 1, fs := fs.mkdir td, stdout := [], stderr := [Msg.batchNeedInput] } := rfl

/-- C3: for every quality label in the set high, medium, low, constructing
a converter binds exactly the preset triple of dpi, JPEG quality and
optimize flag given in the source dictionary: high is (300, 95, true),
medium is (200, 85, true), low is (150, 75, true); the label defaults to
high when omitted (the Python default argument of the constructor); and
any label outside the set is rejected by the click.Choice enum at the CLI
argument-parsing boundary, before a converter is used. -/
theorem C3_quality_presets :
    PDFConverter.settings (mkPDFConverter "high") = some ⟨300, 95, true⟩
    ∧ PDFConverter.settings (mkPDFConverter "medium") = some ⟨200, 85, true⟩
    ∧ PDFConverter.settings (mkPDFConverter "low") = some ⟨150, 75, true⟩
    ∧ (mkPDFConverter : PDFConverter).quality = "high"
    ∧ (∀ s : String, s ≠ "high" → s ≠ "medium" → s ≠ "low" →
        clickChoiceQuality s = none) := by
  refine ⟨rfl, rfl, rfl, rfl, ?_⟩
  intro s h1 h2 h3
  simp [clickChoiceQuality, h1, h2, h3]

/-- C3 witness: the presets at the three labels, and rejection of a
concrete unknown label. -/
theorem C3_quality_presets_witness :
    clickChoiceQuality "ultra" = none :=
  C3_quality_presets.2.2.2.2 "ultra" (by decide) (by decide) (by decide)

/-- C9: merge behavior does not depend on the quality preset bound in the
converter.  For any two converters, whatever their quality labels
(including labels outside the recognized set), runs of the merge operation
agree exactly: same success flag, same filesystem (hence same output file
content), same messages.  The method reads nothing from the converter. -/
theorem C9_merge_quality_independent (c1 c2 : PDFConverter) (env : Env)
    (fs : FS) (input_files : List Path) (output_file : Path) :
    merge_pdfs c1 env fs input_files output_file =
      merge_pdfs c2 env fs input_files output_file := rfl

/-- C10: constructing a converter with a quality label outside the set
high, medium, low succeeds without error (the constructor stores the label
unvalidated); the invalid label surfaces only when image-to-PDF or
optimize is invoked with existing inputs, where the KeyError from the
preset dictionary lookup is caught by the catch-all handler of the
operation and turned into a failure return value with the handler
message, not an unhandled exception, leaving the filesystem unchanged. -/
theorem C10_invalid_quality_caught (q : String) (env : Env) (fs : FS)
    (files : List Path) (inp outp : Path)
    (hq1 : q ≠ "high") (hq2 : q ≠ "medium") (hq3 : q ≠ "low")
    (hf : ∀ p ∈ files, fs.existsF p = true)
    (hi : fs.existsF inp = true) :
    (mkPDFConverter q).quality = q
    ∧ image_to_pdf (mkPDFConverter q) env fs files outp =
        { ok := false, fs := fs, stdout := []
          stderr := [Msg.convertError (PyErr.keyError q)] }
    ∧ optimize_pdf (mkPDFConverter q) env fs inp outp =
        { ok := false, fs := fs, stdout := [Msg.optimizing inp]
          stderr := [Msg.optimizeError (PyErr.keyError q)], reduction := none } := by
  have hqs : quality_settings q = none := by
    simp [quality_settings, hq1, hq2, hq3]
  refine ⟨rfl, ?_, ?_⟩
  · have hfind : files.find? (fun p => !(fs.existsF p)) = none := by
      rw [List.find?_eq_none]
      intro p hp
      simp [hf p hp]
    unfold image_to_pdf
    rw [hfind]
    dsimp only [mkPDFConverter]
    rw [hqs]
  · obtain ⟨f, n⟩ : ∃ e, fs.lookup inp = some e := by
      rcases Option.isSome_iff_exists.mp (by simpa [FS.existsF] using hi) with ⟨e, he⟩
      exact ⟨e, he⟩
    unfold optimize_pdf
    rw [n]
    dsimp only [mkPDFConverter]
    rw [hqs]

/-- C10 witness: the unknown label ultra with the concrete filesystem. -/
theorem C10_invalid_quality_caught_witness :
    (mkPDFConverter "ultra").quality = "ultra"
    ∧ image_to_pdf (mkPDFConverter "ultra") envA fsA [["a.jpg"]] ["out.pdf"] =
        { ok := false, fs := fsA, stdout := []
          stderr := [Msg.convertError (PyErr.keyError "ultra")] }
    ∧ optimize_pdf (mkPDFConverter "ultra") envA fsA ["b.pdf"] ["out.pdf"] =
        { ok := false, fs := fsA, stdout := [Msg.optimizing ["b.pdf"]]
          stderr := [Msg.optimizeError (PyErr.keyError "ultra")], reduction := none } :=
  C10_invalid_quality_caught "ultra" envA fsA [["a.jpg"]] ["b.pdf"] ["out.pdf"]
    (by decide) (by decide) (by decide) (by decide) (by decide)

/-- Size lookup after a write at the same path. -/
theorem FS.getsize_write_self (fs : FS) (p : Path) (f : File) (n : Nat) :
    (fs.write p f n).getsize p = some n := by
  simp [FS.getsize, FS.lookup_write_self]

/-- The high preset, for concrete witnesses. -/
def presetHigh : Preset := ⟨300, 95, true⟩

/-- A small (below threshold) embedded image stream. -/
def stSmall : ImageStream := { data := .enc 100 (some imgA), filt := .FlateDecode }

/-- A large (above threshold) embedded image stream. -/
def stBig : ImageStream := { data := .enc 5000 (some imgA), filt := .FlateDecode }

/-- C5: during optimize, an embedded image stream whose raw encoded length
is below the 1024-byte threshold is left untouched with no message; a
stream above the threshold that decodes, and whose (flattened) image the
encoder accepts, is decoded, flattened to RGB onto a white background
exactly when its mode carries alpha or a palette, re-encoded as JPEG at
the quality and optimize flag of the active preset, and its stream content and
filter tag are replaced in place with the DCTDecode filter, keeping the
XObject name and position. -/
theorem C5_optimize_image_threshold (env : Env) (s : Preset) (name : String)
    (st : ImageStream) :
    (st.data.len < 1024 → optimizeImage env s name st = (st, []))
    ∧ (∀ img : ImageData, 1024 < st.data.len → st.data.decodeImg = some img →
        (flattenIfNeeded img).canEncode = true →
        optimizeImage env s name st =
          ({ data := StreamData.jpegOf (flattenIfNeeded img) s.quality s.optimize none
               (env.jpegLen (flattenIfNeeded img) s.quality s.optimize)
             filt := PdfFilter.DCTDecode }, []))
    ∧ (∀ img : ImageData,
        ((img.mode = .RGBA ∨ img.mode = .LA ∨ img.mode = .P) →
          (flattenIfNeeded img).mode = .RGB
          ∧ (flattenIfNeeded img).pixels = .compositedOnWhite img.pixels)
        ∧ (¬(img.mode = .RGBA ∨ img.mode = .LA ∨ img.mode = .P) →
          flattenIfNeeded img = img))
    ∧ (∀ st' : ImageStream,
        optimizeXObj env s (name, XObj.image st') =
          ((name, XObj.image (optimizeImage env s name st').1),
            (optimizeImage env s name st').2)) := by
  refine ⟨?_, ?_, ?_, fun st' => rfl⟩
  · intro h
    unfold optimizeImage
    rw [if_neg (by omega)]
  · intro img h hdec henc
    unfold optimizeImage
    rw [if_pos h, hdec]
    dsimp only
    rw [if_pos henc]
  · intro img
    constructor
    · intro h
      unfold flattenIfNeeded
      rw [if_pos h]
      exact ⟨rfl, rfl⟩
    · intro h
      unfold flattenIfNeeded
      rw [if_neg h]

/-- C5 witness: a concrete below-threshold stream is untouched and a
concrete above-threshold RGBA stream is replaced by a JPEG at quality 95
with the DCTDecode filter. -/
theorem C5_optimize_image_threshold_witness :
    optimizeImage envA presetHigh "Im1" stSmall = (stSmall, [])
    ∧ optimizeImage envA presetHigh "Im1" stBig =
        ({ data := StreamData.jpegOf (flattenIfNeeded imgA) presetHigh.quality
             presetHigh.optimize none
             (envA.jpegLen (flattenIfNeeded imgA) presetHigh.quality presetHigh.optimize)
           filt := PdfFilter.DCTDecode }, []) :=
  ⟨(C5_optimize_image_threshold envA presetHigh "Im1" stSmall).1 (by decide),
   (C5_optimize_image_threshold envA presetHigh "Im1" stBig).2.1 imgA
     (by decide) rfl (by decide)⟩

/-- C6: on every successful optimize run, the reported reduction equals
exactly (original_size - optimized_size) / original_size * 100 over the
byte sizes of the input and output files, as an exact rational with no
clamping; the witness exhibits a negative reported value when re-encoding
enlarges the file. -/
theorem C6_reduction_formula (conv : PDFConverter) (env : Env) (fs : FS)
    (inp outp : Path)
    (h : (optimize_pdf conv env fs inp outp).ok = true) :
    ∃ n m : Nat, fs.getsize inp = some n
      ∧ (optimize_pdf conv env fs inp outp).fs.getsize outp = some m
      ∧ n ≠ 0
      ∧ (optimize_pdf conv env fs inp outp).reduction =
          some (((n : ℚ) - (m : ℚ)) / (n : ℚ) * 100) := by
  rcases hlu : fs.lookup inp with _ | ⟨f, origSize⟩
  · unfold optimize_pdf at h
    rw [hlu] at h
    simp at h
  · rcases hset : quality_settings conv.quality with _ | s
    · unfold optimize_pdf at h
      rw [hlu, hset] at h
      simp at h
    · rcases f with d | img | id
      · by_cases hz : origSize = 0
        · unfold optimize_pdf at h
          rw [hlu, hset] at h
          dsimp only at h
          rw [if_pos hz] at h
          simp at h
        · unfold optimize_pdf
          rw [hlu, hset]
          dsimp only
          rw [if_neg hz]
          refine ⟨origSize, env.pdfBytes (optimizeDoc env s d).1, ?_, ?_, hz, rfl⟩
          · simp [FS.getsize, hlu]
          · exact FS.getsize_write_self _ _ _ _
      · unfold optimize_pdf at h
        rw [hlu, hset] at h
        simp at h
      · unfold optimize_pdf at h
        rw [hlu, hset] at h
        simp at h

/-- C6 witness: optimizing the 100-byte PDF under an environment whose
serializer produces 500 bytes reports a reduction of minus 400 percent,
unclamped. -/
theorem C6_reduction_formula_witness :
    (∃ n m : Nat, fsA.getsize ["b.pdf"] = some n
      ∧ (optimize_pdf (mkPDFConverter "high") envA fsA ["b.pdf"] ["o.pdf"]).fs.getsize ["o.pdf"] = some m
      ∧ n ≠ 0
      ∧ (optimize_pdf (mkPDFConverter "high") envA fsA ["b.pdf"] ["o.pdf"]).reduction =
          some (((n : ℚ) - (m : ℚ)) / (n : ℚ) * 100))
    ∧ (optimize_pdf (mkPDFConverter "high") envA fsA ["b.pdf"] ["o.pdf"]).reduction =
        some (-400 : ℚ) :=
  ⟨C6_reduction_formula (mkPDFConverter "high") envA fsA ["b.pdf"] ["o.pdf"] (by decide),
   by
    have h1 : (optimize_pdf (mkPDFConverter "high") envA fsA ["b.pdf"] ["o.pdf"]).reduction =
        some ((((100 : ℕ) : ℚ) - ((500 : ℕ) : ℚ)) / ((100 : ℕ) : ℚ) * 100) := rfl
    rw [h1]
    norm_num⟩

/-! Lemmas about the warning-collecting map of the optimize pass. -/

theorem mapWarn_fst_map {α β : Type} (f : α → β × List Msg) (l : List α) :
    (mapWarn f l).1 = l.map (fun a => (f a).1) := by
  induction l with
  | nil => rfl
  | cons a as ih => simp [mapWarn, ih]

theorem mapWarn_append {α β : Type} (f : α → β × List Msg) (l1 l2 : List α) :
    mapWarn f (l1 ++ l2) =
      ((mapWarn f l1).1 ++ (mapWarn f l2).1, (mapWarn f l1).2 ++ (mapWarn f l2).2) := by
  induction l1 with
  | nil => simp [mapWarn]
  | cons a as ih => simp [mapWarn, ih]

/-- C7: during optimize, a failure to decode or to re-encode a single
embedded image (the stream does not decode, or the encoder rejects the
flattened image) causes only a warning naming that image; the stream is
left untouched, the per-object pass continues with the entries before and
after it unaffected, and the failure has no effect on the overall success
of the operation, which returns true for any document contents. -/
theorem C7_per_image_failure (env : Env) (s : Preset) (name : String)
    (st : ImageStream)
    (hbig : 1024 < st.data.len)
    (hfail : st.data.decodeImg = none ∨
      ∃ img, st.data.decodeImg = some img ∧ (flattenIfNeeded img).canEncode = false) :
    (∃ e : PyErr, optimizeImage env s name st = (st, [Msg.optimizeWarn name e]))
    ∧ (∀ pre post : List (String × XObj),
        mapWarn (optimizeXObj env s) (pre ++ (name, XObj.image st) :: post) =
          ((mapWarn (optimizeXObj env s) pre).1 ++ (name, XObj.image st) ::
              (mapWarn (optimizeXObj env s) post).1,
            (mapWarn (optimizeXObj env s) pre).2 ++ (optimizeImage env s name st).2
              ++ (mapWarn (optimizeXObj env s) post).2))
    ∧ (∀ (conv : PDFConverter) (fs : FS) (inp outp : Path) (d : PDF) (n : Nat),
        fs.lookup inp = some (File.pdfDoc d, n) →
        quality_settings conv.quality = some s →
        n ≠ 0 →
        (optimize_pdf conv env fs inp outp).ok = true) := by
  have huntouched : ∃ e : PyErr, optimizeImage env s name st = (st, [Msg.optimizeWarn name e]) := by
    unfold optimizeImage
    rw [if_pos hbig]
    rcases hfail with hdec | ⟨img, hdec, henc⟩
    · rw [hdec]
      exact ⟨.cannotIdentifyImage, rfl⟩
    · rw [hdec]
      dsimp only
      rw [if_neg (by simp [henc])]
      exact ⟨.encoderError, rfl⟩
  refine ⟨huntouched, ?_, ?_⟩
  · intro pre post
    obtain ⟨e, he⟩ := huntouched
    rw [mapWarn_append]
    simp [mapWarn, optimizeXObj, he]
  · intro conv fs inp outp d n hlu hset hn
    unfold optimize_pdf
    rw [hlu, hset]
    dsimp only
    rw [if_neg hn]

/-- C7 witness: a concrete above-threshold stream that fails to decode is
left untouched with a warning naming it, the surrounding entries are
processed independently, and a whole run on a document containing it still
succeeds. -/
theorem C7_per_image_failure_witness :
    (∃ e : PyErr,
      optimizeImage envA presetHigh "Im9" { data := .enc 5000 none, filt := .FlateDecode } =
        ({ data := .enc 5000 none, filt := .FlateDecode }, [Msg.optimizeWarn "Im9" e]))
    ∧ (∀ pre post : List (String × XObj),
        mapWarn (optimizeXObj envA presetHigh)
            (pre ++ ("Im9", XObj.image { data := .enc 5000 none, filt := .FlateDecode }) :: post) =
          ((mapWarn (optimizeXObj envA presetHigh) pre).1 ++
              ("Im9", XObj.image { data := .enc 5000 none, filt := .FlateDecode }) ::
              (mapWarn (optimizeXObj envA presetHigh) post).1,
            (mapWarn (optimizeXObj envA presetHigh) pre).2 ++
              (optimizeImage envA presetHigh "Im9"
                { data := .enc 5000 none, filt := .FlateDecode }).2
              ++ (mapWarn (optimizeXObj envA presetHigh) post).2))
    ∧ (∀ (conv : PDFConverter) (fs : FS) (inp outp : Path) (d : PDF) (n : Nat),
        fs.lookup inp = some (File.pdfDoc d, n) →
        quality_settings conv.quality = some presetHigh →
        n ≠ 0 →
        (optimize_pdf conv envA fs inp outp).ok = true) :=
  C7_per_image_failure envA presetHigh "Im9"
    { data := .enc 5000 none, filt := .FlateDecode } (by decide) (Or.inl rfl)

/-- Preservation of one XObject table entry by the optimize pass: the name
is kept, a non-image entry is kept identically, and an image entry remains
an image entry (only its stream may differ). -/
def XPreserved (x x' : String × XObj) : Prop :=
  x'.1 = x.1 ∧
  match x.2 with
  | XObj.nonImage d => x'.2 = XObj.nonImage d
  | XObj.image _ => ∃ st', x'.2 = XObj.image st'

/-- Preservation of one page by the optimize pass: the non-image content
stream is kept, a page without an XObject table is kept identically, and a
page with one keeps its entries pairwise preserved in order. -/
def PagePreserved (p p' : Page) : Prop :=
  p'.content = p.content ∧
  match p.xobjects, p'.xobjects with
  | none, none => p' = p
  | some xs, some xs' => List.Forall₂ XPreserved xs xs'
  | _, _ => False

theorem optimizeXObj_preserves (env : Env) (s : Preset) (x : String × XObj) :
    XPreserved x (optimizeXObj env s x).1 := by
  rcases x with ⟨name, o⟩
  rcases o with st | d
  · exact ⟨rfl, ⟨_, rfl⟩⟩
  · exact ⟨rfl, rfl⟩

theorem optimizePage_preserves (env : Env) (s : Preset) (p : Page) :
    PagePreserved p (optimizePage env s p).1 := by
  rcases hx : p.xobjects with _ | xs
  · unfold optimizePage
    rw [hx]
    simp [PagePreserved, hx]
  · unfold optimizePage
    rw [hx]
    dsimp only
    refine ⟨rfl, ?_⟩
    rw [hx]
    dsimp only
    rw [mapWarn_fst_map]
    rw [List.forall₂_map_right_iff]
    rw [List.forall₂_same]
    exact fun x _ => optimizeXObj_preserves env s x

/-- C8: for every PDF successfully processed by optimize, the output
document written at the output path has the same page count as the input
and the same non-image content: every page keeps its content stream, pages
without an XObject table are kept identically, XObject names, order and
non-image entries are kept, and image entries remain image entries; only
the image stream contents (and hence the serialized file size) may differ. -/
theorem C8_optimize_preserves_structure (conv : PDFConverter) (env : Env)
    (fs : FS) (inp outp : Path)
    (h : (optimize_pdf conv env fs inp outp).ok = true) :
    ∃ (d : PDF) (n : Nat) (s : Preset),
      fs.lookup inp = some (File.pdfDoc d, n)
      ∧ quality_settings conv.quality = some s
      ∧ (optimize_pdf conv env fs inp outp).fs.lookup outp =
          some (File.pdfDoc (optimizeDoc env s d).1, env.pdfBytes (optimizeDoc env s d).1)
      ∧ (optimizeDoc env s d).1.length = d.length
      ∧ List.Forall₂ PagePreserved d (optimizeDoc env s d).1 := by
  rcases hlu : fs.lookup inp with _ | ⟨f, origSize⟩
  · unfold optimize_pdf at h
    rw [hlu] at h
    simp at h
  · rcases hset : quality_settings conv.quality with _ | s
    · unfold optimize_pdf at h
      rw [hlu, hset] at h
      simp at h
    · rcases f with d | img | id
      · by_cases hz : origSize = 0
        · unfold optimize_pdf at h
          rw [hlu, hset] at h
          dsimp only at h
          rw [if_pos hz] at h
          simp at h
        · refine ⟨d, origSize, s, rfl, rfl, ?_, ?_, ?_⟩
          · unfold optimize_pdf
            rw [hlu, hset]
            dsimp only
            rw [if_neg hz]
            exact FS.lookup_write_self _ _ _ _
          · unfold optimizeDoc
            rw [mapWarn_fst_map]
            exact List.length_map _ _
          · unfold optimizeDoc
            rw [mapWarn_fst_map]
            rw [List.forall₂_map_right_iff]
            rw [List.forall₂_same]
            exact fun p _ => optimizePage_preserves env s p
      · unfold optimize_pdf at h
        rw [hlu, hset] at h
        simp at h
      · unfold optimize_pdf at h
        rw [hlu, hset] at h
        simp at h

/-- C8 witness: the concrete one-page PDF. -/
theorem C8_optimize_preserves_structure_witness :
    ∃ (d : PDF) (n : Nat) (s : Preset),
      fsA.lookup ["b.pdf"] = some (File.pdfDoc d, n)
      ∧ quality_settings (mkPDFConverter "high").quality = some s
      ∧ (optimize_pdf (mkPDFConverter "high") envA fsA ["b.pdf"] ["o.pdf"]).fs.lookup ["o.pdf"] =
          some (File.pdfDoc (optimizeDoc envA s d).1, envA.pdfBytes (optimizeDoc envA s d).1)
      ∧ (optimizeDoc envA s d).1.length = d.length
      ∧ List.Forall₂ PagePreserved d (optimizeDoc envA s d).1 :=
  C8_optimize_preserves_structure (mkPDFConverter "high") envA fsA ["b.pdf"] ["o.pdf"]
    (by decide)

/-! Lemmas about the per-file loop of merge. -/

/-- When the input list contains a missing file, the merge loop never
reaches the write: it stops at a missing file or at a library error on an
earlier unreadable entry. -/
theorem mergeLoop_missing (fs : FS) :
    ∀ (files : List Path) (pages : List Page) (msgs : List Msg),
      (∃ p ∈ files, fs.existsF p = false) →
      (∃ ms p, mergeLoop fs files pages msgs = .fileMissing ms p
          ∧ fs.existsF p = false ∧ p ∈ files)
      ∨ (∃ ms e, mergeLoop fs files pages msgs = .libError ms e) := by
  intro files
  induction files with
  | nil =>
    intro pages msgs h
    rcases h with ⟨p, hp, _⟩
    simp at hp
  | cons a rest ih =>
    intro pages msgs h
    unfold mergeLoop
    rcases hla : fs.lookup a with _ | ⟨f, n⟩
    · exact Or.inl ⟨msgs, a, rfl, by simp [FS.existsF, hla], by simp⟩
    · have hexa : fs.existsF a = true := by simp [FS.existsF, hla]
      have h' : ∃ p ∈ rest, fs.existsF p = false := by
        rcases h with ⟨p, hp, hex⟩
        rcases List.mem_cons.mp hp with hpa | hpr
        · rw [hpa] at hex; rw [hexa] at hex; cases hex
        · exact ⟨p, hpr, hex⟩
      rcases f with d | im | id
      · rcases ih (pages ++ d) (msgs ++ [.adding a]) h' with ⟨ms, p, heq, hex, hmem⟩ | ⟨ms, e, heq⟩
        · exact Or.inl ⟨ms, p, heq, hex, List.mem_cons_of_mem a hmem⟩
        · exact Or.inr ⟨ms, e, heq⟩
      · exact Or.inr ⟨msgs ++ [.adding a], .notAPdf a, rfl⟩
      · exact Or.inr ⟨msgs ++ [.adding a], .notAPdf a, rfl⟩

/-- When every existing entry of the list is a readable PDF, the loop
stops exactly at the first missing file and reports it. -/
theorem mergeLoop_allPdf_missing (fs : FS) :
    ∀ (files : List Path) (pages : List Page) (msgs : List Msg),
      (∀ q ∈ files, ∀ f n, fs.lookup q = some (f, n) → ∃ d, f = File.pdfDoc d) →
      (∃ p ∈ files, fs.existsF p = false) →
      ∃ ms p, mergeLoop fs files pages msgs = .fileMissing ms p
        ∧ fs.existsF p = false ∧ p ∈ files := by
  intro files
  induction files with
  | nil =>
    intro pages msgs _ h
    rcases h with ⟨p, hp, _⟩
    simp at hp
  | cons a rest ih =>
    intro pages msgs hpdf h
    unfold mergeLoop
    rcases hla : fs.lookup a with _ | ⟨f, n⟩
    · exact ⟨msgs, a, rfl, by simp [FS.existsF, hla], by simp⟩
    · have hexa : fs.existsF a = true := by simp [FS.existsF, hla]
      have h' : ∃ p ∈ rest, fs.existsF p = false := by
        rcases h with ⟨p, hp, hex⟩
        rcases List.mem_cons.mp hp with hpa | hpr
        · rw [hpa] at hex; rw [hexa] at hex; cases hex
        · exact ⟨p, hpr, hex⟩
      obtain ⟨d, hd⟩ := hpdf a (by simp) f n hla
      subst hd
      obtain ⟨ms, p, heq, hex, hmem⟩ :=
        ih (pages ++ d) (msgs ++ [.adding a])
          (fun q hq f' n' hl => hpdf q (List.mem_cons_of_mem a hq) f' n' hl) h'
      exact ⟨ms, p, heq, hex, List.mem_cons_of_mem a hmem⟩

/-- C4, amended: when the input list contains a nonexistent path, each of
merge, image-to-PDF and optimize returns a failure result rather than an
unhandled exception and leaves the filesystem unchanged, writing no output
file.  Image-to-PDF and optimize always name the missing path in their
single error message.  Merge checks paths one at a time while appending,
so it names the first missing path whenever every existing entry of the
list is a readable PDF; if an earlier existing entry is unreadable, the
run still fails without writing output, but with the library error message
instead of one naming the missing path. -/
theorem C4_missing_input (conv : PDFConverter) (env : Env) (fs : FS)
    (mfiles ifiles : List Path) (inp mOut iOut oOut : Path)
    (hm : ∃ p ∈ mfiles, fs.existsF p = false)
    (hi : ∃ p ∈ ifiles, fs.existsF p = false)
    (ho : fs.existsF inp = false) :
    ((merge_pdfs conv env fs mfiles mOut).ok = false
      ∧ (merge_pdfs conv env fs mfiles mOut).fs = fs
      ∧ ((∀ q ∈ mfiles, ∀ f n, fs.lookup q = some (f, n) → ∃ d, f = File.pdfDoc d) →
          ∃ p, (merge_pdfs conv env fs mfiles mOut).stderr = [Msg.fileNotFound p]
            ∧ fs.existsF p = false ∧ p ∈ mfiles))
    ∧ ((image_to_pdf conv env fs ifiles iOut).ok = false
      ∧ (image_to_pdf conv env fs ifiles iOut).fs = fs
      ∧ ∃ p, (image_to_pdf conv env fs ifiles iOut).stderr = [Msg.fileNotFound p]
          ∧ fs.existsF p = false ∧ p ∈ ifiles)
    ∧ ((optimize_pdf conv env fs inp oOut).ok = false
      ∧ (optimize_pdf conv env fs inp oOut).fs = fs
      ∧ (optimize_pdf conv env fs inp oOut).stderr = [Msg.fileNotFound inp]) := by
  refine ⟨?_, ?_, ?_⟩
  · have hloop := mergeLoop_missing fs mfiles [] [] hm
    rcases hloop with ⟨ms, p, heq, hex, hmem⟩ | ⟨ms, e, heq⟩
    · constructor
      · unfold merge_pdfs; rw [heq]
      · constructor
        · unfold merge_pdfs; rw [heq]
        · intro hpdf
          obtain ⟨ms', p', heq', hex', hmem'⟩ := mergeLoop_allPdf_missing fs mfiles [] [] hpdf hm
          refine ⟨p', ?_, hex', hmem'⟩
          unfold merge_pdfs; rw [heq']
    · constructor
      · unfold merge_pdfs; rw [heq]
      · constructor
        · unfold merge_pdfs; rw [heq]
        · intro hpdf
          obtain ⟨ms', p', heq', hex', hmem'⟩ := mergeLoop_allPdf_missing fs mfiles [] [] hpdf hm
          refine ⟨p', ?_, hex', hmem'⟩
          unfold merge_pdfs; rw [heq']
  · have hsome : (ifiles.find? (fun p => !(fs.existsF p))).isSome := by
      rw [List.find?_isSome]
      rcases hi with ⟨p, hp, hex⟩
      exact ⟨p, hp, by simp [hex]⟩
    obtain ⟨p0, hp0⟩ := Option.isSome_iff_exists.mp hsome
    have hex0 : fs.existsF p0 = false := by
      have := List.find?_some hp0
      simpa using this
    have hmem0 : p0 ∈ ifiles := List.mem_of_find?_eq_some hp0
    refine ⟨?_, ?_, ⟨p0, ?_, hex0, hmem0⟩⟩
    · unfold image_to_pdf; rw [hp0]
    · unfold image_to_pdf; rw [hp0]
    · unfold image_to_pdf; rw [hp0]
  · have hlu : fs.lookup inp = none := by
      have := ho
      unfold FS.existsF at this
      exact Option.not_isSome_iff_eq_none.mp (by simp [this])
    refine ⟨?_, ?_, ?_⟩
    · unfold optimize_pdf; rw [hlu]
    · unfold optimize_pdf; rw [hlu]
    · unfold optimize_pdf; rw [hlu]

/-- C4 witness: a missing file among readable PDFs for merge, a missing
image for convert, and a missing input for optimize. -/
theorem C4_missing_input_witness :
    ((merge_pdfs (mkPDFConverter "high") envA fsA [["b.pdf"], ["missing.pdf"]] ["m.pdf"]).ok = false
      ∧ (merge_pdfs (mkPDFConverter "high") envA fsA [["b.pdf"], ["missing.pdf"]] ["m.pdf"]).fs = fsA
      ∧ ((∀ q ∈ [["b.pdf"], ["missing.pdf"]], ∀ f n,
            fsA.lookup q = some (f, n) → ∃ d, f = File.pdfDoc d) →
          ∃ p, (merge_pdfs (mkPDFConverter "high") envA fsA
              [["b.pdf"], ["missing.pdf"]] ["m.pdf"]).stderr = [Msg.fileNotFound p]
            ∧ fsA.existsF p = false ∧ p ∈ [["b.pdf"], ["missing.pdf"]]))
    ∧ ((image_to_pdf (mkPDFConverter "high") envA fsA [["missing.jpg"]] ["i.pdf"]).ok = false
      ∧ (image_to_pdf (mkPDFConverter "high") envA fsA [["missing.jpg"]] ["i.pdf"]).fs = fsA
      ∧ ∃ p, (image_to_pdf (mkPDFConverter "high") envA fsA [["missing.jpg"]] ["i.pdf"]).stderr =
            [Msg.fileNotFound p]
          ∧ fsA.existsF p = false ∧ p ∈ [["missing.jpg"]])
    ∧ ((optimize_pdf (mkPDFConverter "high") envA fsA ["missing.pdf"] ["o2.pdf"]).ok = false
      ∧ (optimize_pdf (mkPDFConverter "high") envA fsA ["missing.pdf"] ["o2.pdf"]).fs = fsA
      ∧ (optimize_pdf (mkPDFConverter "high") envA fsA ["missing.pdf"] ["o2.pdf"]).stderr =
          [Msg.fileNotFound ["missing.pdf"]]) :=
  C4_missing_input (mkPDFConverter "high") envA fsA [["b.pdf"], ["missing.pdf"]]
    [["missing.jpg"]] ["missing.pdf"] ["m.pdf"] ["i.pdf"] ["o2.pdf"]
    (by decide) (by decide) (by decide)

/-- C4, counterexample to the claim as stated.  The claim requires the
error message to name the missing path for EVERY input list containing a
nonexistent path.  For merge, the list whose first entry is an existing
non-PDF file and whose second entry is missing fails on the library append
of the first entry, with an error that mentions only that first entry and
never the missing path. -/
theorem C4_merge_no_naming_cex :
    (merge_pdfs (mkPDFConverter "high") envA fsA [["a.jpg"], ["missing.pdf"]] ["m.pdf"]).ok = false
    ∧ fsA.existsF ["missing.pdf"] = false
    ∧ (merge_pdfs (mkPDFConverter "high") envA fsA [["a.jpg"], ["missing.pdf"]] ["m.pdf"]).stderr =
        [Msg.mergeError (PyErr.notAPdf ["a.jpg"])]
    ∧ ((merge_pdfs (mkPDFConverter "high") envA fsA
          [["a.jpg"], ["missing.pdf"]] ["m.pdf"]).stderr.all
        (fun m => !((Msg.paths m).contains ["missing.pdf"]))) = true := by
  exact ⟨rfl, rfl, rfl, rfl⟩

end PdfConv
